import Mathlib

/-!
Verification development for the email-bot crawler/dispatcher (src/main.rs).

The embedding models:
* the Redis-backed daily counter and the function check_update_email_count
  (main.rs lines 67-102), including its retry-on-failure loop;
* the deduplication of extracted emails (lines 170-182);
* the pagination crawl loop (lines 118-190);
* the dispatch loop over accumulated records (lines 224-250), including the
  unwrap of the recipient-address parse;
* the overall phase ordering of main (crawl, checkpoint write, credential
  load, confirmation, dispatch).

Machine integers: the Redis counter is read as isize; it is modelled as Int.
External effects (HTTP fetches, Redis round-trips, SMTP sends, stdin) are
modelled as environment data supplied to the pure transition functions.
-/

/-- The only error the modelled fragments can produce across the counter-store
boundary: BotError::RedisError (main.rs lines 41-42).  Other variants of the
source enum belong to code paths outside the claims. -/
inductive BotError where
  | redisError
deriving DecidableEq, Repr

/-- State of one day's counter key in the Redis store: the stored integer (as
read with type isize, hence Int) and the time-to-live set by EXPIRE, if any.
The key format emails_sent:YYYY-MM-DD fixes one key per calendar day; within
one run the day is constant, so the state of that single key is the whole
relevant store. -/
structure Store where
  value : Option Int
  ttl : Option Int
deriving DecidableEq, Repr

/-- The store state at the start of a fresh day: key absent. -/
def S0 : Store := ⟨none, none⟩

/-- The success path of check_update_email_count (main.rs lines 74-90): one
GET of today's key followed by the conditional INCR / SET / EXPIRE commands,
with every store command succeeding.  Returns the reservation decision and
the updated store.
* key absent: SET key 1, EXPIRE key 86400, return true (lines 86-90);
* present and count < max: INCR by 1, and EXPIRE 86400 exactly when the
  pre-increment count was 0, return true (lines 76-81);
* present and count >= max: return false, store untouched (lines 82-84). -/
def check_update_email_count (s : Store) (max_emails_per_day : Nat) : Bool × Store :=
  match s.value with
  | some count =>
    if count < (max_emails_per_day : Int) then
      (true, ⟨some (count + 1), if count = 0 then some 86400 else s.ttl⟩)
    else
      (false, s)
  | none => (true, ⟨some 1, some 86400⟩)

/-- max_retries in check_update_email_count (main.rs line 71). -/
def max_retries : Nat := 5

/-- The fixed delay, in milliseconds, slept before each retry
(main.rs line 97: Duration::from_millis(500)). -/
def retry_delay_ms : Nat := 500

/-- The retry loop of check_update_email_count (main.rs lines 73-101).
failAt n tells whether the GET performed with retry_count = n fails
transiently (only the GET is wrapped by the retry; the follow-up INCR /
SET / EXPIRE errors propagate immediately and are not modelled as failing).
budget is the number of retries still allowed, maintained so that
budget = max_retries - n; budget = 0 on a failing attempt is exactly the
source condition retry_count >= max_retries.  Returns
(number of GET attempts made, total milliseconds slept, outcome). -/
def retryAux (failAt : Nat → Bool) (s : Store) (maxE : Nat) :
    Nat → Nat → Nat × Nat × Except BotError (Bool × Store)
  | n, budget =>
    if failAt n then
      match budget with
      | 0 => (1, 0, Except.error BotError.redisError)
      | b + 1 =>
        let r := retryAux failAt s maxE (n + 1) b
        (r.1 + 1, (r.2.1 + retry_delay_ms, r.2.2))
    else
      (1, 0, Except.ok (check_update_email_count s maxE))

/-- check_update_email_count including its retry loop, started as the source
starts it: retry_count = 0, retry budget max_retries. -/
def check_update_email_count_retry (failAt : Nat → Bool) (s : Store) (maxE : Nat) :
    Nat × Nat × Except BotError (Bool × Store) :=
  retryAux failAt s maxE 0 max_retries

/-- n consecutive calls of the (successful) quota check against the same
day's key, threading the store; returns how many calls granted a reservation
(returned true) and the final store. -/
def runReserve (maxE : Nat) : Nat → Store → Nat × Store
  | 0, s => (0, s)
  | n + 1, s =>
    let g := check_update_email_count s maxE
    let r := runReserve maxE n g.2
    ((if g.1 then 1 else 0) + r.1, r.2)

/-- A contact record (struct Business, main.rs lines 51-55). -/
structure Business where
  url : String
  email : String
deriving DecidableEq, Repr

/-- Observable steps of a run, in program order. -/
inductive Event where
  | listingFetch (page : Nat)
  | detailFetch (href : String)
  | writeCheckpoint
  | configFatal
  | configLoaded
  | promptUser
  | abortedByUser
  | skippedInvalid (email : String)
  | reserve (granted : Bool)
  | sendAttempt (email : String) (ok : Bool)
  | quotaNotice
  | panicOnParse (email : String)
deriving DecidableEq, Repr

/-- How one pass of the dispatch loop ends. -/
inductive DispOutcome where
  | completed
  | quotaHalt
  | panicked (email : String)
deriving DecidableEq, Repr

/-- The constant sender address (main.rs line 198). -/
def email_sender : String := "coffeecodestudio.dev@gmail.com"

/-- Split a character list at its first at-sign, when one is present. -/
def splitAtSign : List Char → Option (List Char × List Char)
  | [] => none
  | c :: cs =>
    if c = '@' then some ([], cs)
    else
      match splitAtSign cs with
      | none => none
      | some (u, d) => some (c :: u, d)

/-- Model of the external lettre mailbox-address parser invoked through
parse().unwrap() at main.rs lines 232-233 (the lettre crate is outside this
repository): a bare address is accepted when it has the shape
local-part, at-sign, domain with both parts nonempty, no space in either
part and no second at-sign.  This agrees with the external parser on every
concrete input appearing in this development; in particular it rejects an
address whose domain contains a space. -/
def validMailbox (e : String) : Bool :=
  match splitAtSign e.toList with
  | none => false
  | some (u, d) =>
    !u.isEmpty && !d.isEmpty &&
      u.all (fun c => c != ' ') && d.all (fun c => c != '@' && c != ' ')

/-- The dispatch loop over the accumulated records (main.rs lines 224-250),
for executions in which every counter-store round trip succeeds (the retry
behaviour under transient failures is modelled separately by
check_update_email_count_retry).  sendOk gives the outcome of the external
SMTP send per recipient; it does not stop the loop either way (lines
240-243).  Steps, per record:
* the email field not containing an at-sign: log and continue, no quota
  interaction (lines 225-228);
* otherwise consult check_update_email_count; when it denies, print the
  daily-limit notice and break (lines 246-249);
* when it grants, build the message: the sender parse is unwrapped first
  (line 232), then the recipient parse (line 233); an unparseable address
  panics the program right there, after the quota slot was consumed;
* otherwise attempt the send and continue regardless of its outcome. -/
def dispatchLoop (maxE : Nat) (sendOk : String → Bool) :
    List Business → Store → List Event × Store × DispOutcome
  | [], s => ([], s, DispOutcome.completed)
  | b :: rest, s =>
    if b.email.toList.contains '@' = false then
      let r := dispatchLoop maxE sendOk rest s
      (Event.skippedInvalid b.email :: r.1, r.2)
    else
      let g := check_update_email_count s maxE
      if g.1 then
        if validMailbox email_sender = false then
          ([Event.reserve true, Event.panicOnParse email_sender], g.2,
            DispOutcome.panicked email_sender)
        else if validMailbox b.email = false then
          ([Event.reserve true, Event.panicOnParse b.email], g.2,
            DispOutcome.panicked b.email)
        else
          let r := dispatchLoop maxE sendOk rest g.2
          (Event.reserve true :: Event.sendAttempt b.email (sendOk b.email) :: r.1, r.2)
      else
        ([Event.reserve false, Event.quotaNotice], g.2, DispOutcome.quotaHalt)

/-- The deduplication step on the processed_emails set (main.rs lines
170-182): membership test, then insertion when absent.  Returns whether the
candidate was admitted and the updated set (modelled as the list of
previously admitted identities). -/
def admitIdentity (seen : List String) (email : String) : Bool × List String :=
  if email ∈ seen then (false, seen) else (true, email :: seen)

/-- A sequence of presentations to the deduplicator, recording each
identity together with the answer it received. -/
def admitRunPairs : List String → List String → List (String × Bool) × List String
  | [], seen => ([], seen)
  | e :: es, seen =>
    let a := admitIdentity seen e
    let r := admitRunPairs es a.2
    ((e, a.1) :: r.1, r.2)

/-- Detail-page URL built from a listing href (main.rs line 142). -/
def detailUrl (href : String) : String :=
  "https://www.yellowpages.com" ++ href

/-- Processing of the business links of one listing page (main.rs lines
140-187): fetch each detail page in document order, extract the email when
the page has one (extract href = none models a detail page without the
email element, dropped silently), deduplicate, and append admitted records
to the accumulated collection.  Returns the events, the updated
processed_emails set and the updated collection. -/
def processLinks (extract : String → Option String) :
    List String → List String → List Business →
    List Event × List String × List Business
  | [], seen, acc => ([], seen, acc)
  | link :: rest, seen, acc =>
    match extract link with
    | none =>
      let r := processLinks extract rest seen acc
      (Event.detailFetch link :: r.1, r.2)
    | some email =>
      let a := admitIdentity seen email
      let acc' := if a.1 then acc ++ [⟨detailUrl link, email⟩] else acc
      let r := processLinks extract rest a.2 acc'
      (Event.detailFetch link :: r.1, r.2)

/-- The pagination crawl loop (main.rs lines 118-190), for executions in
which every fetch succeeds.  The environment supplies, page by page, the
hrefs of the business-name links of each listing; the loop fetches listing
pages in increasing page order and stops exactly when a fetched listing has
no business links (lines 136-138).  The result is none when the supplied
environment was exhausted without an empty listing: the source loop would
keep fetching further pages (has_more_pages is never set to false). -/
def crawlLoop (extract : String → Option String) :
    List (List String) → Nat → List String → List Business →
    List Event × Option (List Business)
  | [], _, _, _ => ([], none)
  | page :: rest, pn, seen, acc =>
    if page.isEmpty then
      ([Event.listingFetch pn], some acc)
    else
      let p := processLinks extract page seen acc
      let r := crawlLoop extract rest (pn + 1) p.2.1 p.2.2
      (Event.listingFetch pn :: p.1 ++ r.1, r.2)

/-- Is the event a listing-page fetch? -/
def isListingFetch : Event → Bool
  | Event.listingFetch _ => true
  | _ => false

/-- Number of listing pages fetched in an event trace. -/
def countListings (evs : List Event) : Nat := evs.countP isListingFetch

/-- Environment of one run of main: the listing pages the site serves, the
email extracted from each detail page, whether the .env file loads, the
EMAIL_PASSWORD environment value, the confirmation answer, the per-recipient
send outcomes and the counter-store state at dispatch time. -/
structure Env where
  pages : List (List String)
  extract : String → Option String
  dotenvOk : Bool
  emailPassword : Option String
  confirmYes : Bool
  sendOk : String → Bool
  store : Store

/-- The phases of main after the crawl has terminated (main.rs lines
192-250): write the checkpoint file, load the .env file (expect panics on
failure, line 196), read EMAIL_PASSWORD (expect panics when unset, line
199), preview and prompt, then either abort on a non-yes answer or run the
dispatch loop with max_emails_per_day = 400 (line 116). -/
def postCrawl (env : Env) (bs : List Business) : List Event :=
  Event.writeCheckpoint ::
    (if env.dotenvOk = false then [Event.configFatal]
     else
       match env.emailPassword with
       | none => [Event.configFatal]
       | some _ =>
         Event.configLoaded :: Event.promptUser ::
           (if env.confirmYes = false then [Event.abortedByUser]
            else (dispatchLoop 400 env.sendOk bs env.store).1))

/-- The observable trace of one run of main (main.rs lines 104-252): the
crawl loop runs first; only if it terminates do the checkpoint write, the
credential load, the confirmation prompt and the dispatch loop follow. -/
def mainTrace (env : Env) : List Event :=
  match crawlLoop env.extract env.pages 1 [] [] with
  | (cevs, none) => cevs
  | (cevs, some bs) => cevs ++ postCrawl env bs

/-- A concrete environment: one listing page with one link, then an empty
listing; every detail page yields the same valid address; the .env file
loads but EMAIL_PASSWORD is unset. -/
def env0 : Env where
  pages := [["l1"], []]
  extract := fun _ => some "x@y.com"
  dotenvOk := true
  emailPassword := none
  confirmYes := true
  sendOk := fun _ => true
  store := S0


/-! ### Lemmas about the counter store -/

lemma check_false_store (s : Store) (m : Nat)
    (h : (check_update_email_count s m).1 = false) :
    (check_update_email_count s m).2 = s := by
  rcases s with ⟨v, t⟩
  cases v with
  | none => simp [check_update_email_count] at h
  | some c =>
    by_cases hc : c < (m : Int)
    · simp [check_update_email_count, hc] at h
    · simp [check_update_email_count, hc]

lemma runReserve_some (maxE : Nat) :
    ∀ (n v : Nat) (t : Option Int), 1 ≤ v → v ≤ maxE →
      runReserve maxE n ⟨some (v : Int), t⟩ =
        (min n (maxE - v), ⟨some ((v + min n (maxE - v) : Nat) : Int), t⟩) := by
  intro n
  induction n with
  | zero =>
    intro v t h1 h2
    simp [runReserve]
  | succ n ih =>
    intro v t h1 h2
    rcases lt_or_ge v maxE with hlt | hge
    · have hvint : ((v : Nat) : Int) < ((maxE : Nat) : Int) := by exact_mod_cast hlt
      have hv0 : ¬ (((v : Nat) : Int) = 0) := by omega
      have hc : check_update_email_count ⟨some (v : Int), t⟩ maxE =
          (true, ⟨some ((v + 1 : Nat) : Int), t⟩) := by
        simp only [check_update_email_count]
        rw [if_pos hvint, if_neg hv0]
        norm_cast
      simp only [runReserve, hc]
      rw [ih (v + 1) t (by omega) (by omega)]
      have key1 : 1 + min n (maxE - (v + 1)) = min (n + 1) (maxE - v) := by omega
      have key2 : (v + 1) + min n (maxE - (v + 1)) = v + min (n + 1) (maxE - v) := by omega
      simp only [if_true]
      rw [key1, key2]
    · have hv : v = maxE := le_antisymm h2 hge
      have hc : check_update_email_count ⟨some (v : Int), t⟩ maxE =
          (false, ⟨some (v : Int), t⟩) := by
        simp only [check_update_email_count]
        rw [if_neg (by omega)]
      simp only [runReserve, hc]
      rw [ih v t h1 h2]
      have h0 : maxE - v = 0 := by omega
      simp [h0]

lemma runReserve_S0 (maxE n : Nat) (hm : 1 ≤ maxE) (hn : 1 ≤ n) :
    runReserve maxE n S0 =
      (min n maxE, ⟨some ((min n maxE : Nat) : Int), some 86400⟩) := by
  obtain ⟨k, rfl⟩ : ∃ k, n = k + 1 := ⟨n - 1, by omega⟩
  have hc : check_update_email_count S0 maxE =
      (true, ⟨some ((1 : Nat) : Int), some 86400⟩) := by
    simp [check_update_email_count, S0]
  simp only [runReserve, hc]
  rw [runReserve_some maxE k 1 (some 86400) le_rfl hm]
  have key1 : 1 + min k (maxE - 1) = min (k + 1) maxE := by omega
  simp only [if_true]
  rw [key1]

/-! ### Claims about the quota gate (C1, C3, C8) -/

/-- C1, counterexample.  The claim asserts that when the counter store fails
on every attempt, check_update_email_count fails with a StoreError after
exactly 5 attempts, never making a 6th.  On the code, an execution in which
every GET fails makes exactly 6 attempts (the initial attempt plus
max_retries = 5 retries) before returning the error. -/
theorem claimC1_counterexample :
    (check_update_email_count_retry (fun _ => true) S0 400).1 = 6 ∧
    (check_update_email_count_retry (fun _ => true) S0 400).2.2 =
      Except.error BotError.redisError := by
  constructor <;> rfl

/-- C1, amended.  If the counter store fails transiently on the first 4
attempts and succeeds on the 5th, the quota check returns the correct result
after exactly 5 attempts (with 4 inter-attempt delays of 500 ms, 2000 ms in
total) and does not fail; if the store fails on every attempt, the quota
check fails with a StoreError after exactly 6 attempts (the initial attempt
plus 5 retries), never making a 7th, with a 500 ms delay before each retry
(5 delays, 2500 ms in total). -/
theorem claimC1_amended (failAt : Nat → Bool) (s : Store) (maxE : Nat) :
    ((∀ n, n < 4 → failAt n = true) → failAt 4 = false →
      check_update_email_count_retry failAt s maxE =
        (5, 2000, Except.ok (check_update_email_count s maxE))) ∧
    ((∀ n, failAt n = true) →
      check_update_email_count_retry failAt s maxE =
        (6, 2500, Except.error BotError.redisError)) := by
  constructor
  · intro hf h4
    have h0 := hf 0 (by norm_num)
    have h1 := hf 1 (by norm_num)
    have h2 := hf 2 (by norm_num)
    have h3 := hf 3 (by norm_num)
    simp [check_update_email_count_retry, retryAux, max_retries, retry_delay_ms,
      h0, h1, h2, h3, h4]
  · intro hf
    simp [check_update_email_count_retry, retryAux, max_retries, retry_delay_ms,
      hf 0, hf 1, hf 2, hf 3, hf 4, hf 5]

/-- C1, witness: both amended behaviours at concrete failure schedules. -/
theorem claimC1_witness :
    check_update_email_count_retry (fun n => decide (n < 4)) S0 400 =
      (5, 2000, Except.ok (check_update_email_count S0 400)) ∧
    check_update_email_count_retry (fun _ => true) S0 400 =
      (6, 2500, Except.error BotError.redisError) :=
  ⟨(claimC1_amended (fun n => decide (n < 4)) S0 400).1
      (fun n hn => decide_eq_true hn) (by decide),
   (claimC1_amended (fun _ => true) S0 400).2 (fun _ => rfl)⟩

/-- C3, counterexample.  The claim quantifies over every max_per_day greater
than or equal to 0.  With max_per_day = 0 and an absent counter, the very
first call grants a reservation (the absent-key branch sets the counter to 1
and returns true without consulting the limit), so the number of true
results (1) exceeds max_per_day (0) and the counter (1) exceeds
max_per_day. -/
theorem claimC3_counterexample :
    (runReserve 0 1 S0).1 = 1 ∧ (runReserve 0 1 S0).2.value = some 1 := by
  constructor <;> rfl

/-- C3, amended.  For every max_per_day greater than or equal to 1 and every
sequence of successful quota-check calls against a single day's key starting
from an absent counter: the number of calls returning true never exceeds
max_per_day; after max_per_day calls have returned true, the next call
returns false; and the counter value never exceeds max_per_day as the direct
result of the gate's own increments. -/
theorem claimC3_amended (maxE n : Nat) (hm : 1 ≤ maxE) :
    (runReserve maxE n S0).1 ≤ maxE ∧
    (runReserve maxE maxE S0).1 = maxE ∧
    (check_update_email_count (runReserve maxE maxE S0).2 maxE).1 = false ∧
    (∀ w : Int, (runReserve maxE n S0).2.value = some w → w ≤ (maxE : Int)) := by
  have hM := runReserve_S0 maxE maxE hm hm
  refine ⟨?_, ?_, ?_, ?_⟩
  · rcases Nat.eq_zero_or_pos n with h | h
    · subst h; simp [runReserve]
    · rw [runReserve_S0 maxE n hm h]; omega
  · rw [hM]; omega
  · rw [hM]
    simp [check_update_email_count]
  · intro w hw
    rcases Nat.eq_zero_or_pos n with h | h
    · subst h; simp [runReserve, S0] at hw
    · rw [runReserve_S0 maxE n hm h] at hw
      simp only [Option.some.injEq] at hw
      omega

/-- C3, witness: amended bounds at max_per_day = 2 over 3 calls. -/
theorem claimC3_witness :
    (runReserve 2 3 S0).1 ≤ 2 ∧ (runReserve 2 2 S0).1 = 2 ∧
    (check_update_email_count (runReserve 2 2 S0).2 2).1 = false :=
  ⟨(claimC3_amended 2 3 (by norm_num)).1,
   (claimC3_amended 2 3 (by norm_num)).2.1,
   (claimC3_amended 2 3 (by norm_num)).2.2.1⟩

/-- C8.  For every store state, a successful quota check behaves as: absent
key (treated as zero) is set to 1 with a 24-hour (86400-second) expiry and
the call returns true; a present value strictly below the limit is
incremented by 1, the 24-hour expiry is (re)set exactly when the
pre-increment value was 0, and the call returns true; a present value at or
above the limit leaves the store untouched and the call returns false. -/
theorem claimC8_confirmed (s : Store) (maxE : Nat) :
    (s.value = none →
      check_update_email_count s maxE = (true, ⟨some 1, some 86400⟩)) ∧
    (∀ v : Int, s.value = some v → v < (maxE : Int) →
      check_update_email_count s maxE =
        (true, ⟨some (v + 1), if v = 0 then some 86400 else s.ttl⟩)) ∧
    (∀ v : Int, s.value = some v → (maxE : Int) ≤ v →
      check_update_email_count s maxE = (false, s)) := by
  refine ⟨?_, ?_, ?_⟩
  · intro h
    simp [check_update_email_count, h]
  · intro v hv hlt
    simp [check_update_email_count, hv, hlt]
  · intro v hv hle
    simp [check_update_email_count, hv, not_lt.mpr hle]

/-- C8, witness: a present value 3 below the limit 10 is incremented to 4
without touching the expiry. -/
theorem claimC8_witness :
    check_update_email_count ⟨some 3, none⟩ 10 = (true, ⟨some 4, none⟩) := by
  have h := (claimC8_confirmed ⟨some 3, none⟩ 10).2.1 3 rfl (by norm_num)
  simpa using h

/-! ### Claims about the dispatch loop (C4, C5, C9, C10) -/

/-- C4.  When the quota check denies a reservation for some record, the
dispatch pass prints the daily-limit notice and stops entirely: no further
record is attempted and the store is left as it was.  In particular, for
records r1..r5 with max_per_day = 2 and an initially-zero counter, exactly 2
sends are attempted and the loop stops before r3. -/
theorem claimC4_confirmed :
    (∀ (maxE : Nat) (sendOk : String → Bool) (b : Business)
        (rest : List Business) (s : Store),
      b.email.toList.contains '@' = true →
      (check_update_email_count s maxE).1 = false →
      dispatchLoop maxE sendOk (b :: rest) s =
        ([Event.reserve false, Event.quotaNotice], s, DispOutcome.quotaHalt)) ∧
    dispatchLoop 2 (fun _ => true)
        [⟨"u1", "r1@example.com"⟩, ⟨"u2", "r2@example.com"⟩,
         ⟨"u3", "r3@example.com"⟩, ⟨"u4", "r4@example.com"⟩,
         ⟨"u5", "r5@example.com"⟩] ⟨some 0, none⟩ =
      ([Event.reserve true, Event.sendAttempt "r1@example.com" true,
        Event.reserve true, Event.sendAttempt "r2@example.com" true,
        Event.reserve false, Event.quotaNotice],
       ⟨some 2, some 86400⟩, DispOutcome.quotaHalt) := by
  constructor
  · intro maxE sendOk b rest s hb hf
    have hs := check_false_store s maxE hf
    have hb' : '@' ∈ b.email.data := by simpa using hb
    simp [dispatchLoop, hb', hf, hs]
  · rfl

/-- C4, witness: a denied reservation (counter 5 at limit 3) halts the pass
at once. -/
theorem claimC4_witness :
    dispatchLoop 3 (fun _ => true) [⟨"u", "a@ex.com"⟩] ⟨some 5, none⟩ =
      ([Event.reserve false, Event.quotaNotice], ⟨some 5, none⟩,
        DispOutcome.quotaHalt) :=
  claimC4_confirmed.1 3 (fun _ => true) ⟨"u", "a@ex.com"⟩ [] ⟨some 5, none⟩
    (by decide) (by decide)

/-- C5.  A record whose email field does not contain an at-sign is skipped
and the loop continues with the next record: the step contributes only the
skip log, performs no quota check (the store handed to the rest of the loop
is unchanged) and never reaches the send capability; the run is not
stopped. -/
theorem claimC5_confirmed (maxE : Nat) (sendOk : String → Bool)
    (b : Business) (rest : List Business) (s : Store)
    (h : b.email.toList.contains '@' = false) :
    dispatchLoop maxE sendOk (b :: rest) s =
      (Event.skippedInvalid b.email :: (dispatchLoop maxE sendOk rest s).1,
        (dispatchLoop maxE sendOk rest s).2) := by
  have h' : '@' ∉ b.email.data := by simpa using h
  simp [dispatchLoop, h']

/-- C5, witness: the record with email not-an-email is skipped with the
store untouched. -/
theorem claimC5_witness :
    dispatchLoop 10 (fun _ => true) [⟨"u", "not-an-email"⟩] S0 =
      (Event.skippedInvalid "not-an-email" ::
          (dispatchLoop 10 (fun _ => true) [] S0).1,
        (dispatchLoop 10 (fun _ => true) [] S0).2) :=
  claimC5_confirmed 10 (fun _ => true) ⟨"u", "not-an-email"⟩ [] S0 (by decide)

/-- C9.  When a quota slot was reserved for a record and the send then
fails, the failure is recorded, the loop continues with the remaining
records, and the store handed onward is exactly the post-reservation store:
the consumed slot is not refunded. -/
theorem claimC9_confirmed (maxE : Nat) (sendOk : String → Bool)
    (b : Business) (rest : List Business) (s : Store)
    (h1 : b.email.toList.contains '@' = true)
    (h2 : validMailbox b.email = true)
    (h3 : (check_update_email_count s maxE).1 = true)
    (h4 : sendOk b.email = false) :
    dispatchLoop maxE sendOk (b :: rest) s =
      (Event.reserve true :: Event.sendAttempt b.email false ::
          (dispatchLoop maxE sendOk rest (check_update_email_count s maxE).2).1,
        (dispatchLoop maxE sendOk rest (check_update_email_count s maxE).2).2) := by
  have hs : validMailbox email_sender = true := by decide
  have h1' : '@' ∈ b.email.data := by simpa using h1
  simp [dispatchLoop, h1', h2, h3, h4, hs]

/-- C9, witness: a failing send to a valid recipient is logged, the loop
continues on the incremented store. -/
theorem claimC9_witness :
    dispatchLoop 5 (fun _ => false) [⟨"u", "x@y.com"⟩] S0 =
      (Event.reserve true :: Event.sendAttempt "x@y.com" false ::
          (dispatchLoop 5 (fun _ => false) [] (check_update_email_count S0 5).2).1,
        (dispatchLoop 5 (fun _ => false) [] (check_update_email_count S0 5).2).2) :=
  claimC9_confirmed 5 (fun _ => false) ⟨"u", "x@y.com"⟩ [] S0
    (by decide) (by decide) (by decide) rfl

/-- C10.  There is a record whose email field contains an at-sign but is not
a parseable mailbox address: on it the dispatch loop first consumes a quota
slot (counter 0 becomes 1) and then panics on the unwrapped recipient-address
parse, instead of logging, skipping and continuing. -/
theorem claimC10_confirmed :
    ("a@b c".toList.contains '@' = true) ∧
    dispatchLoop 10 (fun _ => true) [⟨"u", "a@b c"⟩] ⟨some 0, none⟩ =
      ([Event.reserve true, Event.panicOnParse "a@b c"],
        ⟨some 1, some 86400⟩, DispOutcome.panicked "a@b c") := by
  constructor <;> rfl

/-! ### Lemmas about deduplication and the crawl (C6, C7) -/

lemma admitRunPairs_count (e : String) :
    ∀ (es seen : List String),
      ((admitRunPairs es seen).1.countP (fun p => p.1 == e && p.2)) =
        if e ∈ es ∧ e ∉ seen then 1 else 0 := by
  intro es
  induction es with
  | nil =>
    intro seen
    simp [admitRunPairs]
  | cons a es ih =>
    intro seen
    by_cases ha : a ∈ seen
    · simp only [admitRunPairs, admitIdentity, if_pos ha]
      rw [List.countP_cons, ih seen]
      by_cases he : e = a
      · subst he
        simp [ha]
      · simp [he, Ne.symm he]
    · simp only [admitRunPairs, admitIdentity, if_neg ha]
      rw [List.countP_cons, ih (a :: seen)]
      by_cases he : e = a
      · subst he
        simp [ha]
      · simp [he, Ne.symm he]

lemma processLinks_inv (extract : String → Option String) :
    ∀ (links seen : List String) (acc : List Business),
      (acc.map Business.email).Nodup →
      (∀ e ∈ acc.map Business.email, e ∈ seen) →
      ((processLinks extract links seen acc).2.2.map Business.email).Nodup ∧
      (∀ e ∈ (processLinks extract links seen acc).2.2.map Business.email,
        e ∈ (processLinks extract links seen acc).2.1) := by
  intro links
  induction links with
  | nil =>
    intro seen acc h1 h2
    simp only [processLinks]
    exact ⟨h1, h2⟩
  | cons link rest ih =>
    intro seen acc h1 h2
    cases hx : extract link with
    | none =>
      simp only [processLinks, hx]
      exact ih seen acc h1 h2
    | some email =>
      simp only [processLinks, hx, admitIdentity]
      by_cases hm : email ∈ seen
      · simp only [if_pos hm, if_neg (Bool.false_ne_true)]
        exact ih seen acc h1 h2
      · simp only [if_neg hm, if_true]
        refine ih (email :: seen) (acc ++ [⟨detailUrl link, email⟩]) ?_ ?_
        · have hni : email ∉ acc.map Business.email := fun hc => hm (h2 email hc)
          simp [List.nodup_append, h1, hni]
        · intro e he
          rw [List.map_append, List.mem_append] at he
          rcases he with he | he
          · exact List.mem_cons_of_mem _ (h2 e he)
          · simp at he
            simp [he]

lemma crawlLoop_inv (extract : String → Option String) :
    ∀ (pages : List (List String)) (pn : Nat) (seen : List String)
      (acc : List Business),
      (acc.map Business.email).Nodup →
      (∀ e ∈ acc.map Business.email, e ∈ seen) →
      ∀ bs, (crawlLoop extract pages pn seen acc).2 = some bs →
        (bs.map Business.email).Nodup := by
  intro pages
  induction pages with
  | nil =>
    intro pn seen acc h1 h2 bs hbs
    simp [crawlLoop] at hbs
  | cons page rest ih =>
    intro pn seen acc h1 h2 bs hbs
    by_cases hp : page.isEmpty
    · simp only [crawlLoop, if_pos hp, Option.some.injEq] at hbs
      subst hbs
      exact h1
    · simp only [crawlLoop, if_neg hp] at hbs
      obtain ⟨hn1, hn2⟩ := processLinks_inv extract page seen acc h1 h2
      exact ih (pn + 1) _ _ hn1 hn2 bs hbs

/-- C6.  Within one crawl run the deduplicator admits each distinct identity
exactly once: a previously admitted identity is answered false and the state
is unchanged; over any presentation sequence started from the empty set,
each identity receives exactly one true answer when it occurs at all (so N
presentations of the same identity yield exactly one admitted record); and
no two records accumulated by a terminating crawl share an email identity. -/
theorem claimC6_confirmed :
    (∀ (seen : List String) (e : String), e ∈ seen →
      admitIdentity seen e = (false, seen)) ∧
    (∀ (es : List String) (e : String),
      ((admitRunPairs es []).1.countP (fun p => p.1 == e && p.2)) =
        if e ∈ es then 1 else 0) ∧
    (∀ (extract : String → Option String) (pages : List (List String))
       (cevs : List Event) (bs : List Business),
      crawlLoop extract pages 1 [] [] = (cevs, some bs) →
      (bs.map Business.email).Nodup) := by
  refine ⟨?_, ?_, ?_⟩
  · intro seen e he
    simp [admitIdentity, he]
  · intro es e
    have h := admitRunPairs_count e es []
    simpa using h
  · intro extract pages cevs bs h
    apply crawlLoop_inv extract pages 1 [] [] (by simp) (by simp) bs
    rw [h]

/-- C6, witness: presenting the identity a twice and b once from the empty
set yields exactly one true answer for a. -/
theorem claimC6_witness :
    ((admitRunPairs ["a", "a", "b"] []).1.countP
        (fun p => p.1 == "a" && p.2)) =
      if "a" ∈ (["a", "a", "b"] : List String) then 1 else 0 :=
  claimC6_confirmed.2.1 ["a", "a", "b"] "a"

lemma processLinks_events (extract : String → Option String) :
    ∀ (links seen : List String) (acc : List Business),
      ∀ ev ∈ (processLinks extract links seen acc).1,
        ∃ l, ev = Event.detailFetch l := by
  intro links
  induction links with
  | nil =>
    intro seen acc ev h
    simp [processLinks] at h
  | cons link rest ih =>
    intro seen acc ev h
    cases hx : extract link with
    | none =>
      simp only [processLinks, hx, List.mem_cons] at h
      rcases h with h | h
      · exact ⟨link, h⟩
      · exact ih seen acc ev h
    | some email =>
      simp only [processLinks, hx, List.mem_cons] at h
      rcases h with h | h
      · exact ⟨link, h⟩
      · exact ih _ _ ev h

lemma processLinks_no_listing (extract : String → Option String)
    (links seen : List String) (acc : List Business) :
    countListings (processLinks extract links seen acc).1 = 0 := by
  rw [countListings, List.countP_eq_zero]
  intro ev hev
  obtain ⟨l, rfl⟩ := processLinks_events extract links seen acc ev hev
  simp [isListingFetch]

lemma crawlLoop_events (extract : String → Option String) :
    ∀ (pages : List (List String)) (pn : Nat) (seen : List String)
      (acc : List Business),
      ∀ ev ∈ (crawlLoop extract pages pn seen acc).1,
        (∃ k, ev = Event.listingFetch k) ∨ (∃ l, ev = Event.detailFetch l) := by
  intro pages
  induction pages with
  | nil =>
    intro pn seen acc ev h
    simp [crawlLoop] at h
  | cons page rest ih =>
    intro pn seen acc ev h
    by_cases hp : page.isEmpty
    · simp only [crawlLoop, if_pos hp, List.mem_singleton] at h
      exact Or.inl ⟨pn, h⟩
    · simp only [crawlLoop, if_neg hp, List.mem_cons, List.mem_append] at h
      rcases h with (h | h) | h
      · exact Or.inl ⟨pn, h⟩
      · exact Or.inr (processLinks_events extract page seen acc ev h)
      · exact ih (pn + 1) _ _ ev h

lemma crawlLoop_terminates_at (extract : String → Option String) :
    ∀ (pages : List (List String)) (i pn : Nat) (seen : List String)
      (acc : List Business),
      pages[i]? = some ([] : List String) →
      (crawlLoop extract pages pn seen acc).2.isSome = true ∧
      countListings (crawlLoop extract pages pn seen acc).1 ≤ i + 1 := by
  intro pages
  induction pages with
  | nil =>
    intro i pn seen acc h
    simp at h
  | cons page rest ih =>
    intro i pn seen acc h
    by_cases hp : page.isEmpty
    · constructor
      · simp [crawlLoop, hp]
      · simp [crawlLoop, hp, countListings, List.countP_cons, isListingFetch]
    · cases i with
      | zero =>
        simp only [List.getElem?_cons_zero, Option.some.injEq] at h
        subst h
        simp at hp
      | succ j =>
        have h' : rest[j]? = some ([] : List String) := by simpa using h
        obtain ⟨hi1, hi2⟩ := ih j (pn + 1) (processLinks extract page seen acc).2.1
          (processLinks extract page seen acc).2.2 h'
        constructor
        · simp only [crawlLoop, if_neg hp]
          exact hi1
        · simp only [crawlLoop, if_neg hp, countListings, List.countP_cons,
            List.countP_append]
          have hz := processLinks_no_listing extract page seen acc
          rw [countListings] at hz
          rw [countListings] at hi2
          simp only [isListingFetch, hz, if_true]
          omega

lemma crawlLoop_no_empty (extract : String → Option String) :
    ∀ (pages : List (List String)) (pn : Nat) (seen : List String)
      (acc : List Business),
      (∀ p ∈ pages, p ≠ ([] : List String)) →
      (crawlLoop extract pages pn seen acc).2 = none := by
  intro pages
  induction pages with
  | nil =>
    intro pn seen acc h
    simp [crawlLoop]
  | cons page rest ih =>
    intro pn seen acc h
    have hp : ¬ page.isEmpty := by
      have hne := h page (List.mem_cons_self page rest)
      simpa [List.isEmpty_iff] using hne
    simp only [crawlLoop, if_neg hp]
    exact ih (pn + 1) _ _ (fun p hp2 => h p (List.mem_cons_of_mem _ hp2))

/-- C7.  For every environment of listing pages: if some page yields zero
detail links then the crawl terminates, having fetched at most that many
listing pages (it stops at or before the first empty listing); and an empty
listing is the sole ending condition of the otherwise unbounded pagination
loop: while no supplied page is empty, the loop does not terminate within
the supplied environment. -/
theorem claimC7_confirmed (extract : String → Option String)
    (pages : List (List String)) :
    (∀ i : Nat, pages[i]? = some ([] : List String) →
      (crawlLoop extract pages 1 [] []).2.isSome = true ∧
      countListings (crawlLoop extract pages 1 [] []).1 ≤ i + 1) ∧
    ((∀ p ∈ pages, p ≠ ([] : List String)) →
      (crawlLoop extract pages 1 [] []).2 = none) := by
  constructor
  · intro i h
    exact crawlLoop_terminates_at extract pages i 1 [] [] h
  · intro h
    exact crawlLoop_no_empty extract pages 1 [] [] h

/-- C7, witness: with one nonempty page followed by an empty one, the crawl
terminates after at most two listing fetches. -/
theorem claimC7_witness :
    (crawlLoop (fun _ => none) [["a"], []] 1 [] []).2.isSome = true ∧
    countListings (crawlLoop (fun _ => none) [["a"], []] 1 [] []).1 ≤ 2 :=
  (claimC7_confirmed (fun _ => none) [["a"], []]).1 1 rfl

/-! ### C2: ordering of credential loading within main -/

/-- C2, counterexample.  The claim asserts that a missing required
credential causes a fatal failure at startup, before any crawling begins.
In env0 the EMAIL_PASSWORD value is unset, yet the run fetches a listing
page and a detail page, writes the checkpoint, and only then hits the fatal
credential failure: the crawl happens while the credential has never been
loaded. -/
theorem claimC2_counterexample :
    env0.emailPassword = none ∧
    mainTrace env0 =
      [Event.listingFetch 1, Event.detailFetch "l1", Event.listingFetch 2,
       Event.writeCheckpoint, Event.configFatal] := by
  constructor <;> rfl

/-- C2, amended.  A missing required credential (.env file failing to load,
or EMAIL_PASSWORD unset) causes a fatal failure after the crawl and the
checkpoint write and before any send: such a run never attempts a send, and
whenever its crawl terminates the trace is exactly the crawl events followed
by the checkpoint write and the fatal credential failure. -/
theorem claimC2_amended (env : Env)
    (h : env.emailPassword = none ∨ env.dotenvOk = false) :
    (∀ ev ∈ mainTrace env, ∀ em ok, ev ≠ Event.sendAttempt em ok) ∧
    (∀ (cevs : List Event) (bs : List Business),
      crawlLoop env.extract env.pages 1 [] [] = (cevs, some bs) →
      mainTrace env = cevs ++ [Event.writeCheckpoint, Event.configFatal]) := by
  have hpost : ∀ bs, postCrawl env bs =
      [Event.writeCheckpoint, Event.configFatal] := by
    intro bs
    rcases h with h | h
    · cases hd : env.dotenvOk with
      | false => simp [postCrawl, hd]
      | true => simp [postCrawl, hd, h]
    · simp [postCrawl, h]
  constructor
  · intro ev hev em ok
    rcases hc : crawlLoop env.extract env.pages 1 [] [] with ⟨cevs, r⟩
    cases r with
    | none =>
      rw [mainTrace, hc] at hev
      rcases crawlLoop_events env.extract env.pages 1 [] [] ev
          (by rw [hc]; exact hev) with ⟨k, rfl⟩ | ⟨l, rfl⟩ <;> simp
    | some bs =>
      rw [mainTrace, hc] at hev
      simp only [hpost bs, List.mem_append] at hev
      rcases hev with hev | hev
      · rcases crawlLoop_events env.extract env.pages 1 [] [] ev
            (by rw [hc]; exact hev) with ⟨k, rfl⟩ | ⟨l, rfl⟩ <;> simp
      · simp only [List.mem_cons, List.mem_singleton, List.not_mem_nil,
          or_false] at hev
        rcases hev with rfl | rfl <;> simp
  · intro cevs bs hc
    rw [mainTrace, hc]
    show cevs ++ postCrawl env bs =
      cevs ++ [Event.writeCheckpoint, Event.configFatal]
    rw [hpost bs]

/-- C2, witness: in env0 (EMAIL_PASSWORD unset) the terminating crawl is
followed by exactly the checkpoint write and the fatal credential failure. -/
theorem claimC2_witness :
    mainTrace env0 =
      [Event.listingFetch 1, Event.detailFetch "l1", Event.listingFetch 2] ++
        [Event.writeCheckpoint, Event.configFatal] :=
  (claimC2_amended env0 (Or.inl rfl)).2
    [Event.listingFetch 1, Event.detailFetch "l1", Event.listingFetch 2]
    [⟨detailUrl "l1", "x@y.com"⟩] rfl
